import Mathlib

/-!
Verification of the BART (Balloon Analogue Risk Task) trial engine of `BART.py`.

The development embeds, as executable Lean definitions:

* `PyRandom`: CPython's `random.Random` for integer seeds — the 32-bit Mersenne
  Twister MT19937 (`init_by_array` seeding, `genrand_uint32`, `getrandbits`,
  `_randbelow_with_getrandbits`, `randint`).  The 624-word generator state is
  packed into a single natural number, 32 bits per word, word `i` at bit offset
  `32*i`.  Loops are written with explicit fuel so that everything reduces in
  the kernel; the rejection loop of `_randbelow` returns `none` when its fuel
  runs out, modelling the probability-zero event that CPython keeps looping.
  Each loop body starts with a conditional on `mt % 1 = 1`; that test is never
  true (`Nat.mod_one`), it only makes kernel reduction evaluate the packed
  state to a numeral at every iteration instead of building a deep thunk.

* `BART`: `sample_explosion_threshold`, the per-trial pump/bank/explode loop of
  `bart()` (lines 563–646), the per-trial CSV record, the block/overall
  accumulators, the block-boundary summaries at 20/40 and the final summary.
  Python's built-in `hash` on strings is salted per process; it is therefore
  passed to `sample_explosion_threshold` as an explicit function parameter
  `pyHash`, standing for the string hash of the running process.  Monetary
  amounts (multiples of `REWARD = 0.5`, on which CPython float arithmetic is
  exact in the ranges reached by the task) are modelled as rationals.
-/

set_option allowUnsafeReducibility true in
attribute [semireducible] Rat.add Rat.mul Rat.sub Rat.inv

namespace PyRandom

/-- Word modulus of the 32-bit Mersenne Twister, `2^32`. -/
def M32 : Nat := 4294967296

/-- Word `i` of a packed state: bits `32*i .. 32*i+31`. -/
def wGet (mt i : Nat) : Nat := (mt >>> (32 * i)) &&& 4294967295

/-- Overwrite word `i` of a packed state with `v` (for `v < 2^32`). -/
def wSet (mt i v : Nat) : Nat :=
  (mt &&& ((1 <<< (32 * i)) - 1)) + (v <<< (32 * i)) +
    ((mt >>> (32 * (i + 1))) <<< (32 * (i + 1)))

/-- Fill loop of CPython `init_genrand`:
`mt[i] = (1812433253 * (mt[i-1] ^ (mt[i-1] >> 30)) + i) & 0xffffffff`. -/
def initGenrandAux : Nat → Nat → Nat → Nat → Nat
  | 0, _, _, mt => mt
  | fuel+1, i, prev, mt =>
      if mt % 1 = 1 then mt else
      let v := (1812433253 * (prev ^^^ (prev >>> 30)) + i) % M32
      initGenrandAux fuel (i+1) v (mt + (v <<< (32 * i)))

/-- CPython `init_genrand(s)`: fills the 624-word state from a 32-bit seed. -/
def initGenrand (s : Nat) : Nat :=
  initGenrandAux 623 1 (s % M32) (s % M32)

/-- First loop of CPython `init_by_array`:
`mt[i] = (mt[i] ^ ((mt[i-1] ^ (mt[i-1] >> 30)) * 1664525)) + key[j] + j` with
32-bit wrap-around, `i` wrapping to 1 (copying `mt[623]` into `mt[0]`) and `j`
cycling over the key. -/
def initByArrayLoop1 : Nat → Nat → Nat → List Nat → Nat → Nat × Nat
  | 0, i, _, _, mt => (mt, i)
  | k+1, i, j, key, mt =>
      if mt % 1 = 1 then (mt, i) else
      let prev := wGet mt (i-1)
      let v := ((wGet mt i ^^^ (((prev ^^^ (prev >>> 30)) * 1664525) % M32)) + key.getD j 0 + j) % M32
      let mt := wSet mt i v
      let i := i + 1
      let j := j + 1
      let (mt, i) := if 624 ≤ i then (wSet mt 0 (wGet mt 623), 1) else (mt, i)
      let j := if key.length ≤ j then 0 else j
      initByArrayLoop1 k i j key mt

/-- Second loop of CPython `init_by_array`:
`mt[i] = (mt[i] ^ ((mt[i-1] ^ (mt[i-1] >> 30)) * 1566083941)) - i` with 32-bit
wrap-around. -/
def initByArrayLoop2 : Nat → Nat → Nat → Nat
  | 0, _, mt => mt
  | k+1, i, mt =>
      if mt % 1 = 1 then mt else
      let prev := wGet mt (i-1)
      let v := ((wGet mt i ^^^ (((prev ^^^ (prev >>> 30)) * 1566083941) % M32)) + (M32 - i)) % M32
      let mt := wSet mt i v
      let i := i + 1
      let (mt, i) := if 624 ≤ i then (wSet mt 0 (wGet mt 623), 1) else (mt, i)
      initByArrayLoop2 k i mt

/-- CPython `init_by_array(key)`: seed with 19650218, mix in the key with the
two loops above, then force `mt[0] = 0x80000000`. -/
def initByArray (key : List Nat) : Nat :=
  let mt := initGenrand 19650218
  let p := initByArrayLoop1 (max 624 key.length) 1 0 key mt
  let mt := initByArrayLoop2 623 p.2 p.1
  wSet mt 0 2147483648

/-- One in-place step of the MT recurrence at index `i`:
`y = (mt[i] & 0x80000000) | (mt[i+1 mod 624] & 0x7fffffff)` and
`mt[i] = mt[i+397 mod 624] ^ (y >> 1) ^ (y & 1 ? 0x9908b0df : 0)`. -/
def twistOne (mt i : Nat) : Nat :=
  let y := (wGet mt i &&& 2147483648) ||| (wGet mt ((i+1) % 624) &&& 2147483647)
  let v := wGet mt ((i + 397) % 624) ^^^ (y >>> 1) ^^^ (if y % 2 = 1 then 2567483615 else 0)
  wSet mt i v

/-- Run `twistOne` at indices `i, i+1, …` (`fuel` of them), in order, in place. -/
def twistAux : Nat → Nat → Nat → Nat
  | 0, _, mt => mt
  | k+1, i, mt =>
      if mt % 1 = 1 then mt else
      twistAux k (i+1) (twistOne mt i)

/-- Regenerate all 624 words (the `self->index >= N` branch of `genrand_uint32`). -/
def twistAll (mt : Nat) : Nat := twistAux 624 0 mt

/-- MT output tempering. -/
def temper (y : Nat) : Nat :=
  let y := y ^^^ (y >>> 11)
  let y := y ^^^ ((y <<< 7) &&& 2636928640)
  let y := y ^^^ ((y <<< 15) &&& 4022730752)
  y ^^^ (y >>> 18)

/-- Generator state: packed 624 words, and the next output index (624 means the
next draw regenerates the block). -/
structure MTState where
  mt : Nat
  index : Nat
deriving DecidableEq

/-- CPython `genrand_uint32`: twist when the block is exhausted, then temper the
word at the current index. -/
def genrand (s : MTState) : Nat × MTState :=
  let s := if 624 ≤ s.index then MTState.mk (twistAll s.mt) 0 else s
  (temper (wGet s.mt s.index), MTState.mk s.mt (s.index + 1))

/-- Inner loop of CPython `getrandbits` for `k > 32`: one 32-bit word per round
(the last word keeps only the remaining `k` bits), assembled little-endian. -/
def getrandbitsAux : Nat → MTState → Nat → Nat → Nat → Nat × MTState
  | 0, s, _, _, acc => (acc, s)
  | fuel+1, s, k, shift, acc =>
      if k = 0 then (acc, s)
      else
        let p := genrand s
        let r := if k < 32 then p.1 >>> (32 - k) else p.1
        getrandbitsAux fuel p.2 (k - 32) (shift + 32) (acc + (r <<< shift))

/-- CPython `getrandbits(k)`: the top `k` bits of one word when `k ≤ 32`, else
word-by-word assembly. -/
def getrandbits (s : MTState) (k : Nat) : Nat × MTState :=
  if k = 0 then (0, s)
  else if k ≤ 32 then
    let p := genrand s
    (p.1 >>> (32 - k), p.2)
  else getrandbitsAux k s k 0 0

/-- Halve-and-count helper for `bitLength`; the first argument is fuel
(`n` itself is always enough fuel). -/
def bitLengthAux : Nat → Nat → Nat
  | 0, _ => 0
  | fuel+1, n => if n = 0 then 0 else bitLengthAux fuel (n / 2) + 1

/-- Python `n.bit_length()`: number of binary digits of `n`, and 0 for 0. -/
def bitLength (n : Nat) : Nat := bitLengthAux n n

/-- Rejection loop of CPython `Random._randbelow_with_getrandbits`: draw
`k = n.bit_length()` bits until the draw is `< n`.  `none` models the
probability-zero case of running out of fuel where CPython would still be
looping. -/
def randbelowAux : Nat → MTState → Nat → Nat → Option (Nat × MTState)
  | 0, _, _, _ => none
  | fuel+1, s, n, k =>
      let p := getrandbits s k
      if p.1 < n then some p else randbelowAux fuel p.2 n k

/-- Fuel of the rejection loop; each round succeeds with probability > 1/2. -/
def RANDBELOW_FUEL : Nat := 64

/-- CPython `Random._randbelow(n)`: 0 when `n = 0`, else rejection sampling
below `n`. -/
def randbelow (s : MTState) (n : Nat) : Option (Nat × MTState) :=
  if n = 0 then some (0, s) else randbelowAux RANDBELOW_FUEL s n (bitLength n)

/-- Split helper for `natToKey`; the first argument is fuel (64 words cover any
seed below `2^2048`, far beyond those reachable in `BART.py`). -/
def natToKeyAux : Nat → Nat → List Nat
  | 0, _ => []
  | _+1, 0 => []
  | fuel+1, n => n % M32 :: natToKeyAux fuel (n / M32)

/-- Key preparation of CPython `random_seed`: `abs(seed)` split into
little-endian 32-bit words (`[0]` for zero). -/
def natToKey (n : Nat) : List Nat :=
  if n = 0 then [0] else natToKeyAux 64 n

/-- Seeding of `random.Random(n)` for a non-negative int `n`: `init_by_array`
over the word key, output index at 624 so that the first draw regenerates. -/
def seedInt (n : Nat) : MTState :=
  MTState.mk (initByArray (natToKey n)) 624

/-- CPython `Random.randint(a, b)`, i.e. `randrange(a, b+1)`:
`a + _randbelow(b + 1 - a)` when `a ≤ b`, else a `ValueError` (modelled as
`none`). -/
def randint (s : MTState) (a b : Nat) : Option Nat :=
  if a ≤ b then (randbelow s (b + 1 - a)).map (fun p => a + p.1) else none

end PyRandom

namespace BART

/-- Master seed `CF_MASTER_SEED = 910273` of `BART.py`. -/
def CF_MASTER_SEED : Nat := 910273

/-- Embedding of `sample_explosion_threshold(max_pumps, subject_id, trial_idx)`
(`BART.py` lines 324–327):

`rng = random.Random(CF_MASTER_SEED + (hash(f"{subject_id}-{trial_idx}") & 0xffffffff))`
`return rng.randint(1, max_pumps)`

`pyHash` is the string-hash function of the running Python process: since
Python 3.3 the built-in `hash` of a `str` is a keyed SipHash whose key is drawn
at interpreter start-up (`PYTHONHASHSEED`), so the hash — and with it this
threshold — is a function of the process, which is why it appears here as an
explicit parameter.  Python's `h & 0xffffffff` on a possibly negative `int` is
`h mod 2^32`. -/
def sample_explosion_threshold (pyHash : String → Int) (max_pumps : Nat)
    (subject_id : String) (trial_idx : Nat) : Option Nat :=
  let seed := CF_MASTER_SEED + ((pyHash (subject_id ++ "-" ++ toString trial_idx)).emod (2^32)).toNat
  PyRandom.randint (PyRandom.seedInt seed) 1 max_pumps

/-- Result of one `event.waitKeys(keyList=[KEY_PUMP, KEY_NEXT, KEY_QUIT], maxWait=15)`
call: `KEY_PUMP` (space), `KEY_NEXT` (return, i.e. bank), or `KEY_QUIT` (escape).
A timed-out wait (`key = None`) is modelled as `none : Option Key`. -/
inductive Key where
  | pump
  | bank
  | quit
deriving DecidableEq

/-- One statistics accumulator (`overall` or `block` in `bart()`), with the
fields of the Python dict in order. -/
structure Stats where
  total_balloons : Nat
  unexploded : Nat
  exploded : Nat
  total_pumps_unexploded : Nat
  earned : ℚ
  potential : ℚ
deriving DecidableEq

/-- The all-zero accumulator, as (re)initialised in `bart()`. -/
def Stats.zero : Stats := ⟨0, 0, 0, 0, 0, 0⟩

/-- The per-trial mutable variables of `bart()` (lines 564–569), in
initialisation order: `tempBank`, `nPumps`, `pop`, `continuePumping`,
`earned_this`, `potential_this`. -/
structure TrialVars where
  tempBank : ℚ
  nPumps : Nat
  pop : Bool
  continuePumping : Bool
  earned_this : ℚ
  potential_this : ℚ
deriving DecidableEq

/-- Fresh per-trial state: `tempBank = 0, nPumps = 0, pop = False,
continuePumping = True, earned_this = 0, potential_this = 0`. -/
def initVars : TrialVars := ⟨0, 0, false, true, 0, 0⟩

/-- The session-level mutable state of `bart()`: the `overall` and `block`
accumulators and `permBank`, in declaration order (lines 551–556). -/
structure SessVars where
  overall : Stats
  block : Stats
  permBank : ℚ
deriving DecidableEq

/-- Session state at the start of the main phase. -/
def initSess : SessVars := ⟨Stats.zero, Stats.zero, 0⟩

/-- Accumulator update of the bank branch (lines 609–619): `total_balloons += 1`,
`unexploded += 1`, `total_pumps_unexploded += nPumps`, `earned += earned_this`,
`potential += potential_this`. -/
def bankUpdate (st : Stats) (nPumps : Nat) (earned pot : ℚ) : Stats :=
  { st with
    total_balloons := st.total_balloons + 1
    unexploded := st.unexploded + 1
    total_pumps_unexploded := st.total_pumps_unexploded + nPumps
    earned := st.earned + earned
    potential := st.potential + pot }

/-- Accumulator update of the explosion branch (lines 638–644):
`total_balloons += 1`, `exploded += 1`, `potential += potential_this`. -/
def explodeUpdate (st : Stats) (pot : ℚ) : Stats :=
  { st with
    total_balloons := st.total_balloons + 1
    exploded := st.exploded + 1
    potential := st.potential + pot }

/-- One iteration of the main-phase pump loop of `bart()` (lines 576–646), for a
trial with explosion threshold `E` (so `last_safe = E - 1`) and reward `REWARD`
per pump.  `none` is the `KEY_QUIT` branch, which returns from `bart()`
(session abort). -/
def trialStep (E : Nat) (reward : ℚ) (key : Option Key) (tv : TrialVars)
    (sv : SessVars) : Option (TrialVars × SessVars) :=
  match key with
  | none =>
      -- timeout: `continuePumping = False; earned_this = 0.0; potential_this = 0.0`
      some ({ tv with continuePumping := false, earned_this := 0, potential_this := 0 }, sv)
  | some Key.quit => none
  | some Key.bank =>
      -- bank: commit `tempBank`, counterfactual potential from `last_safe`
      let earned := tv.tempBank
      let newTotal := sv.permBank + earned
      let pot := ((E - 1 : Nat) : ℚ) * reward
      some ({ tv with earned_this := earned, tempBank := 0, continuePumping := false,
                      potential_this := pot },
            { overall := bankUpdate sv.overall tv.nPumps earned pot,
              block := bankUpdate sv.block tv.nPumps earned pot,
              permBank := newTotal })
  | some Key.pump =>
      -- pump: `nPumps += 1`, then explosion check `nPumps >= E`
      let n := tv.nPumps + 1
      if E ≤ n then
        let pot := ((E - 1 : Nat) : ℚ) * reward
        some ({ tv with nPumps := n, tempBank := 0, pop := true, earned_this := 0,
                        potential_this := pot },
              { sv with overall := explodeUpdate sv.overall pot,
                        block := explodeUpdate sv.block pot })
      else
        some ({ tv with nPumps := n, tempBank := tv.tempBank + reward }, sv)

/-- Result of running one trial's `while continuePumping and not pop` loop on a
stream of wait results: a terminal trial state (with the unconsumed stream), a
session abort (`KEY_QUIT`), or exhaustion of the modelled stream while the loop
still wanted input. -/
inductive TrialOutcome where
  | done (tv : TrialVars) (sv : SessVars) (restKeys : List (Option Key))
  | abortSession
  | noMoreInput
deriving DecidableEq

/-- The `while continuePumping and not pop` loop of `bart()`, consuming one wait
result per iteration. -/
def runTrialLoop (E : Nat) (reward : ℚ) :
    List (Option Key) → TrialVars → SessVars → TrialOutcome
  | [], tv, sv =>
      if tv.continuePumping && !tv.pop then .noMoreInput else .done tv sv []
  | key :: rest, tv, sv =>
      if tv.continuePumping && !tv.pop then
        match trialStep E reward key tv sv with
        | none => .abortSession
        | some p => runTrialLoop E reward rest p.1 p.2
      else .done tv sv (key :: rest)

/-- One trial's configuration from the trial list (`color`, `maxPumps`; the
reward is the global `REWARD`). -/
structure TrialSpec where
  color : String
  maxPumps : Nat
deriving DecidableEq

/-- One row of `trials.csv` (lines 650–666), without the presentation-only
`participant_id` and wall-clock `timestamp` columns:
`missed_this = potential_this - earned_this`. -/
structure TrialRecord where
  trial_number : Nat
  color : String
  max_pumps : Nat
  pumps_made : Nat
  exploded : Bool
  earned_this : ℚ
  banked_total_after : ℚ
  potential_this : ℚ
  missed_this : ℚ
deriving DecidableEq

/-- Build the `trials.csv` row written after the pump loop of trial `idx`. -/
def mkRecord (idx : Nat) (spec : TrialSpec) (tv : TrialVars) (permBank : ℚ) :
    TrialRecord :=
  { trial_number := idx
    color := spec.color
    max_pumps := spec.maxPumps
    pumps_made := tv.nPumps
    exploded := tv.pop
    earned_this := tv.earned_this
    banked_total_after := permBank
    potential_this := tv.potential_this
    missed_this := tv.potential_this - tv.earned_this }

/-- One row of `blocks.csv` as written by `show_summary` (lines 398–416),
without the `participant_id` column: `missed = max(0, potential - earned)`. -/
structure SummaryRow where
  scope : String
  total_balloons : Nat
  unexploded : Nat
  exploded : Nat
  total_pumps_unexploded : Nat
  earned : ℚ
  potential : ℚ
  missed : ℚ
deriving DecidableEq

/-- Build the `blocks.csv` row emitted by `show_summary(…, stats, scope=…)`. -/
def mkSummary (scope : String) (st : Stats) : SummaryRow :=
  { scope := scope
    total_balloons := st.total_balloons
    unexploded := st.unexploded
    exploded := st.exploded
    total_pumps_unexploded := st.total_pumps_unexploded
    earned := st.earned
    potential := st.potential
    missed := max 0 (st.potential - st.earned) }

/-- Result of the main-phase trial loop: normal completion, session abort via
`KEY_QUIT`, or a trial that exhausted its modelled input stream. -/
inductive SessionResult where
  | finished (sv : SessVars) (trialRows : List TrialRecord) (blockRows : List SummaryRow)
  | aborted (trialRows : List TrialRecord) (blockRows : List SummaryRow)
  | stuck
deriving DecidableEq

/-- The `for idx, trial in enumerate(trials, start=1)` loop of `bart()`
(lines 563–674): for each trial derive its threshold with `thresh` (standing
for `sample_explosion_threshold(trial['maxPumps'], subject_id, idx)`), run the
pump loop, append the trial row, and at `overall['total_balloons'] in (20, 40)`
emit a block summary row and reset the `block` accumulator. -/
def runSession (thresh : Nat → Nat → Nat) (reward : ℚ) :
    List (TrialSpec × List (Option Key)) → Nat → SessVars →
    List TrialRecord → List SummaryRow → SessionResult
  | [], _, sv, tr, br => .finished sv tr br
  | (spec, keys) :: rest, idx, sv, tr, br =>
      match runTrialLoop (thresh spec.maxPumps idx) reward keys initVars sv with
      | .abortSession => .aborted tr br
      | .noMoreInput => .stuck
      | .done tv sv2 _ =>
          let tr2 := tr ++ [mkRecord idx spec tv sv2.permBank]
          if sv2.overall.total_balloons = 20 ∨ sv2.overall.total_balloons = 40 then
            let a := sv2.overall.total_balloons - 19
            let b := sv2.overall.total_balloons
            runSession thresh reward rest (idx+1) { sv2 with block := Stats.zero }
              tr2 (br ++ [mkSummary ("block_" ++ toString a ++ "_" ++ toString b) sv2.block])
          else
            runSession thresh reward rest (idx+1) sv2 tr2 br

/-- The main phase of `bart()`: run the trial loop from the fresh session state
and, on normal completion, emit the final summary of the `overall` accumulator
with scope `final_60` (line 677). -/
def bart (thresh : Nat → Nat → Nat) (reward : ℚ)
    (trials : List (TrialSpec × List (Option Key))) : SessionResult :=
  match runSession thresh reward trials 1 initSess [] [] with
  | .finished sv tr br => .finished sv tr (br ++ [mkSummary ("final_60") sv.overall])
  | r => r

/-- The block/summary rows a session emitted. -/
def SessionResult.blockRows : SessionResult → List SummaryRow
  | .finished _ _ br => br
  | .aborted _ br => br
  | .stuck => []

/-- The scopes of the summary rows a session emitted, in emission order. -/
def SessionResult.blockScopes (r : SessionResult) : List String :=
  r.blockRows.map SummaryRow.scope

/-- Conservation invariant of one accumulator:
`total_balloons = unexploded + exploded`. -/
def Stats.conserved (st : Stats) : Prop :=
  st.total_balloons = st.unexploded + st.exploded

/-- Twenty trials that are banked immediately (each consuming a single bank
input), enough to reach the first block boundary. -/
def banked20 : List (TrialSpec × List (Option Key)) :=
  List.replicate 20 (⟨("red"), 8⟩, [some Key.bank])

/-- The `banked20` session followed by one trial whose only wait times out:
trial 21 is abandoned, so `overall['total_balloons']` stays at 20. -/
def dupSummaryTrials : List (TrialSpec × List (Option Key)) :=
  banked20 ++ [(⟨("red"), 8⟩, [(none : Option Key)])]

end BART


namespace PyRandom

/-- The rejection loop of `_randbelow` only ever returns a value below its
bound, whatever the generator state. -/
theorem randbelowAux_lt (fuel : Nat) (s : MTState) (n k : Nat) (p : Nat × MTState)
    (h : randbelowAux fuel s n k = some p) : p.1 < n := by
  induction fuel generalizing s with
  | zero => simp [randbelowAux] at h
  | succ f ih =>
      rw [randbelowAux] at h
      split at h
      · cases h
        assumption
      · exact ih _ h

end PyRandom

namespace BART

/-- C2. For every `maxPumps ≥ 1` and every participant id and trial index,
`sample_explosion_threshold` returns — whenever it returns, i.e. whenever the
modelled rejection loop terminates — an integer `E` with `1 ≤ E ≤ maxPumps`,
for every process string-hash function. -/
theorem threshold_range (pyHash : String → Int) (max_pumps : Nat)
    (subject_id : String) (trial_idx : Nat) (hmp : 1 ≤ max_pumps) (E : Nat)
    (hE : sample_explosion_threshold pyHash max_pumps subject_id trial_idx = some E) :
    1 ≤ E ∧ E ≤ max_pumps := by
  unfold sample_explosion_threshold at hE
  rw [PyRandom.randint, if_pos hmp, PyRandom.randbelow] at hE
  rw [if_neg (by omega : ¬ (max_pumps + 1 - 1 = 0))] at hE
  rw [Option.map_eq_some'] at hE
  obtain ⟨p, hp, hpe⟩ := hE
  have hlt := PyRandom.randbelowAux_lt _ _ _ _ _ hp
  omega

set_option maxRecDepth 100000 in
/-- Witness for C2 at `maxPumps = 32`, `subject_id = "7"`, `trial_idx = 3` with
the constant-zero hash function; the threshold evaluates to 10. -/
theorem threshold_range_witness :
    sample_explosion_threshold (fun _ => 0) 32 ("7") 3 = some 10 ∧
      1 ≤ 10 ∧ 10 ≤ 32 := by
  have h : sample_explosion_threshold (fun _ => 0) 32 ("7") 3 = some 10 := by decide
  exact ⟨h, threshold_range (fun _ => 0) 32 ("7") 3 (by decide) 10 h⟩

set_option maxRecDepth 100000 in
/-- C1 (code bug). The value of `sample_explosion_threshold` depends on the
process string hash: under the (per-process) hash function that sends every
string to 0 the threshold for `(maxPumps := 32, participantId := "7",
trialIndex := 3)` is 10, and under the one that sends every string to 1 it is
25.  Since Python's built-in `str` hash is a salted SipHash whose key is drawn
at interpreter start-up, `hash(f"{participantId}-{trialIndex}")` — and with it
the derived threshold — varies across process restarts, contradicting the
claimed run-stability.  (For a fixed process hash the function is pure, so
repeated invocations within one process do agree.) -/
theorem threshold_depends_on_process_hash :
    sample_explosion_threshold (fun _ => 0) 32 ("7") 3 = some 10 ∧
      sample_explosion_threshold (fun _ => 1) 32 ("7") 3 = some 25 :=
  ⟨by decide, by decide⟩

/-- Running `k` pump inputs while `nPumps + k` stays below the threshold `E`
keeps the loop in the `Pumping` state, incrementing `nPumps` by `k` and adding
`k * reward` to `tempBank`. -/
theorem runTrialLoop_safe_pumps (E : Nat) (reward : ℚ) (k : Nat)
    (keys : List (Option Key)) (tv : TrialVars) (sv : SessVars)
    (hc : tv.continuePumping = true) (hp : tv.pop = false) (hk : tv.nPumps + k < E) :
    runTrialLoop E reward (List.replicate k (some Key.pump) ++ keys) tv sv =
      runTrialLoop E reward keys
        { tv with nPumps := tv.nPumps + k, tempBank := tv.tempBank + k * reward } sv := by
  induction k generalizing tv with
  | zero => simp
  | succ k ih =>
      obtain ⟨tb, np, pp, cp, et, pt⟩ := tv
      simp only at hc hp hk
      subst hc hp
      rw [List.replicate_succ, List.cons_append, runTrialLoop]
      have hnE : ¬ (E ≤ np + 1) := by omega
      simp only [trialStep, Bool.not_false, Bool.and_self, if_true, hnE, if_false, ite_false]
      rw [ih ⟨tb + reward, np + 1, false, true, et, pt⟩ rfl rfl (show np + 1 + k < E by omega)]
      have h1 : tb + reward + (k : ℚ) * reward = tb + ((k + 1 : Nat) : ℚ) * reward := by
        push_cast; ring
      have h2 : np + 1 + k = np + (k + 1) := by omega
      dsimp only
      rw [h1, h2]

/-- A fresh trial fed exactly `E ≥ 1` pump inputs ends exploded: `nPumps = E`,
`tempBank` cleared, `earned_this = 0`, `potential_this = (E-1) * reward`, and
both accumulators receive the explosion update. -/
theorem runTrialLoop_explode_run (E : Nat) (reward : ℚ) (sv : SessVars) (hE : 1 ≤ E) :
    runTrialLoop E reward (List.replicate E (some Key.pump)) initVars sv =
      .done ⟨0, E, true, true, 0, ((E - 1 : Nat) : ℚ) * reward⟩
        { sv with overall := explodeUpdate sv.overall (((E - 1 : Nat) : ℚ) * reward),
                  block := explodeUpdate sv.block (((E - 1 : Nat) : ℚ) * reward) } [] := by
  obtain ⟨F, rfl⟩ : ∃ F, E = F + 1 := ⟨E - 1, by omega⟩
  rw [List.replicate_succ']
  rw [runTrialLoop_safe_pumps (F+1) reward F [some Key.pump] initVars sv rfl rfl
    (by simp [initVars])]
  simp [runTrialLoop, trialStep, initVars]

/-- A fresh trial fed `k < E` pump inputs and then a bank input ends banked:
`earned_this = k * reward` committed to `permBank`, `potential_this =
(E-1) * reward`, and both accumulators receive the bank update. -/
theorem runTrialLoop_bank_run (E k : Nat) (reward : ℚ) (sv : SessVars) (hk : k < E) :
    runTrialLoop E reward (List.replicate k (some Key.pump) ++ [some Key.bank]) initVars sv =
      .done ⟨0, k, false, false, (k : ℚ) * reward, ((E - 1 : Nat) : ℚ) * reward⟩
        ⟨bankUpdate sv.overall k ((k : ℚ) * reward) (((E - 1 : Nat) : ℚ) * reward),
         bankUpdate sv.block k ((k : ℚ) * reward) (((E - 1 : Nat) : ℚ) * reward),
         sv.permBank + (k : ℚ) * reward⟩ [] := by
  rw [runTrialLoop_safe_pumps E reward k [some Key.bank] initVars sv rfl rfl
    (by simp [initVars]; omega)]
  simp [runTrialLoop, trialStep, initVars]

/-- A fresh trial fed `p < E` pump inputs and then a timed-out wait ends
abandoned: the loop stops with `earned_this = 0`, `potential_this = 0`, the
accumulated `tempBank = p * reward` left uncommitted, and the session state
untouched. -/
theorem runTrialLoop_timeout_run (E p : Nat) (reward : ℚ) (sv : SessVars) (hp : p < E) :
    runTrialLoop E reward (List.replicate p (some Key.pump) ++ [none]) initVars sv =
      .done ⟨(p : ℚ) * reward, p, false, false, 0, 0⟩ sv [] := by
  rw [runTrialLoop_safe_pumps E reward p [none] initVars sv rfl rfl
    (by simp [initVars]; omega)]
  simp [runTrialLoop, trialStep, initVars]

/-- C3. A main-phase trial with derived threshold `E` that is pumped exactly to
`pumpsMade = E` ends with `exploded = true`, `earnedThis = 0` and
`potentialThis = (E-1) * rewardPerPump`. -/
theorem explosion_at_threshold (E : Nat) (reward : ℚ) (sv : SessVars) (hE : 1 ≤ E) :
    ∃ tv2 sv2,
      runTrialLoop E reward (List.replicate E (some Key.pump)) initVars sv
        = .done tv2 sv2 [] ∧
      tv2.pop = true ∧ tv2.earned_this = 0 ∧
      tv2.potential_this = ((E - 1 : Nat) : ℚ) * reward :=
  ⟨_, _, runTrialLoop_explode_run E reward sv hE, rfl, rfl, rfl⟩

/-- Witness for C3 at `E = 3`, `reward = 1/2`, from the fresh session state. -/
theorem explosion_at_threshold_witness :
    ∃ tv2 sv2,
      runTrialLoop 3 (1/2) (List.replicate 3 (some Key.pump)) initVars initSess
        = .done tv2 sv2 [] ∧
      tv2.pop = true ∧ tv2.earned_this = 0 ∧
      tv2.potential_this = ((3 - 1 : Nat) : ℚ) * (1/2) :=
  explosion_at_threshold 3 (1/2) initSess (by decide)

/-- C4. A main-phase trial with derived threshold `E` that is banked after
`k < E` pumps ends with `earnedThis = k * rewardPerPump`, `exploded = false`,
and `permBank` increased by exactly `earnedThis` (the committed `tempBank`). -/
theorem bank_before_threshold (E k : Nat) (reward : ℚ) (sv : SessVars) (hk : k < E) :
    ∃ tv2 sv2,
      runTrialLoop E reward (List.replicate k (some Key.pump) ++ [some Key.bank]) initVars sv
        = .done tv2 sv2 [] ∧
      tv2.earned_this = (k : ℚ) * reward ∧ tv2.pop = false ∧
      sv2.permBank = sv.permBank + tv2.earned_this :=
  ⟨_, _, runTrialLoop_bank_run E k reward sv hk, rfl, rfl, rfl⟩

/-- Witness for C4 at `E = 5`, `k = 3`, `reward = 1/2`. -/
theorem bank_before_threshold_witness :
    ∃ tv2 sv2,
      runTrialLoop 5 (1/2) (List.replicate 3 (some Key.pump) ++ [some Key.bank]) initVars initSess
        = .done tv2 sv2 [] ∧
      tv2.earned_this = (3 : ℚ) * (1/2) ∧ tv2.pop = false ∧
      sv2.permBank = initSess.permBank + tv2.earned_this :=
  bank_before_threshold 5 3 (1/2) initSess (by decide)

/-- One loop iteration preserves `totalBalloons = unexploded + exploded` in
both accumulators. -/
theorem trialStep_conserves (E : Nat) (reward : ℚ) (key : Option Key)
    (tv : TrialVars) (sv : SessVars) (p : TrialVars × SessVars)
    (h : trialStep E reward key tv sv = some p)
    (ho : sv.overall.conserved) (hb : sv.block.conserved) :
    p.2.overall.conserved ∧ p.2.block.conserved := by
  cases key with
  | none =>
      simp only [trialStep, Option.some.injEq] at h
      cases h
      exact ⟨ho, hb⟩
  | some k =>
      cases k with
      | quit => simp [trialStep] at h
      | bank =>
          simp only [trialStep, Option.some.injEq] at h
          cases h
          unfold Stats.conserved bankUpdate at *
          dsimp only at *
          exact ⟨by omega, by omega⟩
      | pump =>
          simp only [trialStep] at h
          split at h <;> rw [Option.some.injEq] at h <;> cases h
          · unfold Stats.conserved explodeUpdate at *
            dsimp only at *
            exact ⟨by omega, by omega⟩
          · exact ⟨ho, hb⟩

/-- A whole completed trial preserves `totalBalloons = unexploded + exploded`
in both accumulators. -/
theorem runTrialLoop_conserves (E : Nat) (reward : ℚ) (keys : List (Option Key))
    (tv : TrialVars) (sv : SessVars) (tv2 : TrialVars) (sv2 : SessVars)
    (rest : List (Option Key))
    (h : runTrialLoop E reward keys tv sv = .done tv2 sv2 rest)
    (ho : sv.overall.conserved) (hb : sv.block.conserved) :
    sv2.overall.conserved ∧ sv2.block.conserved := by
  induction keys generalizing tv sv with
  | nil =>
      rw [runTrialLoop] at h
      split at h
      · cases h
      · cases h
        exact ⟨ho, hb⟩
  | cons key ks ih =>
      rw [runTrialLoop] at h
      split at h
      · cases hts : trialStep E reward key tv sv with
        | none => rw [hts] at h; cases h
        | some p =>
            rw [hts] at h
            have hc := trialStep_conserves E reward key tv sv p hts ho hb
            exact ih p.1 p.2 h hc.1 hc.2
      · cases h
        exact ⟨ho, hb⟩

/-- C5. After any sequence of trial outcomes (banked, exploded or abandoned),
both the `block` and the `overall` accumulator satisfy
`totalBalloons = unexploded + exploded`: the invariant is preserved from any
conserving start state down to the end of the session, for every threshold
oracle and input stream. -/
theorem runSession_conserves (thresh : Nat → Nat → Nat) (reward : ℚ)
    (trials : List (TrialSpec × List (Option Key))) (idx : Nat) (sv : SessVars)
    (tr : List TrialRecord) (br : List SummaryRow)
    (sv2 : SessVars) (tr2 : List TrialRecord) (br2 : List SummaryRow)
    (h : runSession thresh reward trials idx sv tr br = .finished sv2 tr2 br2)
    (ho : sv.overall.conserved) (hb : sv.block.conserved) :
    sv2.overall.conserved ∧ sv2.block.conserved := by
  induction trials generalizing idx sv tr br with
  | nil =>
      rw [runSession] at h
      cases h
      exact ⟨ho, hb⟩
  | cons t rest ih =>
      obtain ⟨spec, keys⟩ := t
      rw [runSession] at h
      cases hrt : runTrialLoop (thresh spec.maxPumps idx) reward keys initVars sv with
      | abortSession => rw [hrt] at h; cases h
      | noMoreInput => rw [hrt] at h; cases h
      | done tv svA restKeys =>
          rw [hrt] at h
          have hc := runTrialLoop_conserves _ _ _ _ _ _ _ _ hrt ho hb
          dsimp only at h
          split at h
          · exact ih _ _ _ _ h hc.1 rfl
          · exact ih _ _ _ _ h hc.1 hc.2

/-- Witness for C5: a one-trial session (bank immediately, threshold 5) ends
with conserving accumulators. -/
theorem runSession_conserves_witness :
    runSession (fun _ _ => 5) (1/2) [(⟨("red"), 8⟩, [some Key.bank])] 1 initSess [] []
      = .finished ⟨⟨1, 1, 0, 0, 0, 2⟩, ⟨1, 1, 0, 0, 0, 2⟩, 0⟩
          [⟨1, ("red"), 8, 0, false, 0, 0, 2, 2⟩] [] ∧
    ((⟨⟨1, 1, 0, 0, 0, 2⟩, ⟨1, 1, 0, 0, 0, 2⟩, 0⟩ : SessVars).overall.conserved ∧
     (⟨⟨1, 1, 0, 0, 0, 2⟩, ⟨1, 1, 0, 0, 0, 2⟩, 0⟩ : SessVars).block.conserved) := by
  have h : runSession (fun _ _ => 5) (1/2) [(⟨("red"), 8⟩, [some Key.bank])] 1 initSess [] []
      = .finished ⟨⟨1, 1, 0, 0, 0, 2⟩, ⟨1, 1, 0, 0, 0, 2⟩, 0⟩
          [⟨1, ("red"), 8, 0, false, 0, 0, 2, 2⟩] [] := by decide
  exact ⟨h, runSession_conserves (fun _ _ => 5) (1/2) [(⟨("red"), 8⟩, [some Key.bank])] 1
    initSess [] [] _ _ _ h rfl rfl⟩

/-- C6 (code bug). In a session whose first 20 trials are banked and whose 21st
trial times out (is abandoned), the block-boundary check
`overall['total_balloons'] in (20, 40)` fires again after the abandoned trial —
the count is still 20 — so TWO block summaries with scope `block_1_20` are
emitted instead of exactly one (the second over the just-reset, all-zero block
accumulator), followed by the final summary. -/
theorem duplicate_block_summary :
    (bart (fun _ _ => 5) (1/2) dupSummaryTrials).blockScopes =
      [("block_1_20"), ("block_1_20"), ("final_60")] := by decide

/-- C7. A main-phase trial whose wait times out (after `p` safe pumps) ends as
abandoned: its record has `earnedThis = 0`, `potentialThis = 0`,
`exploded = false`, the accumulated `tempBank` is discarded (`permBank` and the
`overall` accumulator are unchanged), and the session continues with the next
trial. -/
theorem timeout_abandons_trial (thresh : Nat → Nat → Nat) (reward : ℚ) (spec : TrialSpec)
    (p : Nat) (rest : List (TrialSpec × List (Option Key))) (idx : Nat) (sv : SessVars)
    (tr : List TrialRecord) (br : List SummaryRow)
    (hp : p < thresh spec.maxPumps idx) :
    ∃ rcd sv2 br2,
      runSession thresh reward
          ((spec, List.replicate p (some Key.pump) ++ [none]) :: rest) idx sv tr br
        = runSession thresh reward rest (idx+1) sv2 (tr ++ [rcd]) br2 ∧
      rcd.earned_this = 0 ∧ rcd.potential_this = 0 ∧ rcd.exploded = false ∧
      sv2.permBank = sv.permBank ∧ sv2.overall = sv.overall := by
  rw [runSession, runTrialLoop_timeout_run _ _ _ _ hp]
  dsimp only
  split
  · exact ⟨_, _, _, rfl, rfl, rfl, rfl, rfl, rfl⟩
  · exact ⟨_, _, _, rfl, rfl, rfl, rfl, rfl, rfl⟩

/-- Witness for C7: one pump then a timeout, threshold 3, from the fresh
session state. -/
theorem timeout_abandons_trial_witness :
    ∃ rcd sv2 br2,
      runSession (fun _ _ => 3) (1/2)
          [(⟨("red"), 8⟩, List.replicate 1 (some Key.pump) ++ [none])] 1 initSess [] []
        = runSession (fun _ _ => 3) (1/2) [] 2 sv2 ([] ++ [rcd]) br2 ∧
      rcd.earned_this = 0 ∧ rcd.potential_this = 0 ∧ rcd.exploded = false ∧
      sv2.permBank = initSess.permBank ∧ sv2.overall = initSess.overall :=
  timeout_abandons_trial (fun _ _ => 3) (1/2) ⟨("red"), 8⟩ 1 [] 1 initSess [] [] (by decide)

/-- Counterexample to C8: with threshold `E = 3`, three pump inputs end the
trial exploded with `pumpsMade = 3 = E`, not `E - 1 = 2` — the exploding pump
DOES increment `pumpsMade` (the code increments `nPumps` before the explosion
check). -/
theorem exploded_pumps_equals_threshold_cex :
    (runTrialLoop 3 (1/2) (List.replicate 3 (some Key.pump)) initVars initSess =
      .done ⟨0, 3, true, true, 0, 1⟩ ⟨⟨1, 0, 1, 0, 0, 1⟩, ⟨1, 0, 1, 0, 0, 1⟩, 0⟩ []) ∧
    ¬ (3 : Nat) = 3 - 1 := by decide

/-- C8 (amended). On non-exploding pumps both `pumpsMade` and `tempBank` are
updated (`k` safe pumps give `pumpsMade = k`, `tempBank = k * reward`); on the
exploding pump `tempBank` receives nothing and is cleared, `earnedThis = 0`,
but `pumpsMade` IS incremented, so a trial ending exploded terminates with
`pumpsMade = E`. -/
theorem pump_updates_on_pump_inputs (E k : Nat) (reward : ℚ) (sv : SessVars)
    (keys : List (Option Key)) (hk : k < E) :
    runTrialLoop E reward (List.replicate k (some Key.pump) ++ keys) initVars sv =
      runTrialLoop E reward keys ⟨(k : ℚ) * reward, k, false, true, 0, 0⟩ sv ∧
    ∃ tv2 sv2,
      runTrialLoop E reward (List.replicate E (some Key.pump)) initVars sv
        = .done tv2 sv2 [] ∧
      tv2.nPumps = E ∧ tv2.pop = true ∧ tv2.tempBank = 0 ∧ tv2.earned_this = 0 := by
  constructor
  · rw [runTrialLoop_safe_pumps E reward k keys initVars sv rfl rfl
      (show initVars.nPumps + k < E from by simpa [initVars] using hk)]
    norm_num [initVars]
  · exact ⟨_, _, runTrialLoop_explode_run E reward sv (by omega), rfl, rfl, rfl, rfl⟩

/-- Witness for amended C8 at `E = 3`, `k = 2`, `reward = 1/2`. -/
theorem pump_updates_on_pump_inputs_witness :
    (runTrialLoop 3 (1/2) (List.replicate 2 (some Key.pump) ++ []) initVars initSess =
      runTrialLoop 3 (1/2) [] ⟨(2 : ℚ) * (1/2), 2, false, true, 0, 0⟩ initSess) ∧
    ∃ tv2 sv2,
      runTrialLoop 3 (1/2) (List.replicate 3 (some Key.pump)) initVars initSess
        = .done tv2 sv2 [] ∧
      tv2.nPumps = 3 ∧ tv2.pop = true ∧ tv2.tempBank = 0 ∧ tv2.earned_this = 0 :=
  pump_updates_on_pump_inputs 3 2 (1/2) initSess [] (by decide)

/-- A quit input arriving after any input prefix that leaves the loop still
waiting aborts the loop. -/
theorem runTrialLoop_noMoreInput_quit (E : Nat) (reward : ℚ)
    (keys more : List (Option Key)) (tv : TrialVars) (sv : SessVars)
    (h : runTrialLoop E reward keys tv sv = .noMoreInput) :
    runTrialLoop E reward (keys ++ some Key.quit :: more) tv sv = .abortSession := by
  induction keys generalizing tv sv with
  | nil =>
      rw [runTrialLoop] at h
      split at h
      · rename_i hg
        rw [List.nil_append, runTrialLoop, if_pos hg]
        simp [trialStep]
      · cases h
  | cons key ks ih =>
      rw [runTrialLoop] at h
      split at h
      · rename_i hg
        rw [List.cons_append, runTrialLoop, if_pos hg]
        cases hts : trialStep E reward key tv sv with
        | none => rfl
        | some p =>
            rw [hts] at h
            exact ih p.1 p.2 h
      · cases h

/-- C9. If a quit input arrives while the trial is still in a non-terminal
state (the input prefix `pre` leaves the loop waiting), the whole session
aborts immediately: the result is `aborted` with the trial-record and
summary-row lists exactly as they were — no record is written for the
in-progress trial and no later trial runs. -/
theorem quit_aborts_session (thresh : Nat → Nat → Nat) (reward : ℚ) (spec : TrialSpec)
    (pre more : List (Option Key)) (rest : List (TrialSpec × List (Option Key)))
    (idx : Nat) (sv : SessVars) (tr : List TrialRecord) (br : List SummaryRow)
    (h : runTrialLoop (thresh spec.maxPumps idx) reward pre initVars sv = .noMoreInput) :
    runSession thresh reward ((spec, pre ++ some Key.quit :: more) :: rest) idx sv tr br =
      .aborted tr br := by
  rw [runSession, runTrialLoop_noMoreInput_quit _ _ _ _ _ _ h]

/-- Witness for C9: quit after one pump, threshold 3. -/
theorem quit_aborts_session_witness :
    (runTrialLoop 3 (1/2) [some Key.pump] initVars initSess = .noMoreInput) ∧
    runSession (fun _ _ => 3) (1/2)
        [(⟨("red"), 8⟩, [some Key.pump] ++ some Key.quit :: [])] 1 initSess [] []
      = .aborted [] [] := by
  have h : runTrialLoop 3 (1/2) [some Key.pump] initVars initSess = .noMoreInput := by decide
  exact ⟨h, quit_aborts_session (fun _ _ => 3) (1/2) ⟨("red"), 8⟩ [some Key.pump] []
    [] 1 initSess [] [] h⟩

/-- Counterexample to C10's invisibility clause: in the 21-trial session of
`dupSummaryTrials` the 21st trial is abandoned, yet its record write is
followed by a (second) `block_1_20` summary emission — abandoned trials are
NOT invisible to the block-boundary check when the count already sits at a
boundary. -/
theorem abandoned_trial_emits_summary_cex :
    SessionResult.blockScopes
        (runSession (fun _ _ => 5) (1/2) dupSummaryTrials 1 initSess [] []) =
      [("block_1_20"), ("block_1_20")] := by decide

/-- C10 (amended). An abandoned (timed-out) main-phase trial still writes a
trial record (with its pump count, `exploded = false`, zero earned and zero
potential), and — provided `overall.totalBalloons` is not sitting at 20 or 40 —
leaves the session state (both accumulators and `permBank`) and the emitted
summary rows completely unchanged while the session continues with the next
trial.  (At 20 or 40 the boundary check re-fires and emits a duplicate
summary; see the counterexample.) -/
theorem abandoned_trial_frame (thresh : Nat → Nat → Nat) (reward : ℚ) (spec : TrialSpec)
    (p : Nat) (rest : List (TrialSpec × List (Option Key))) (idx : Nat) (sv : SessVars)
    (tr : List TrialRecord) (br : List SummaryRow)
    (hp : p < thresh spec.maxPumps idx)
    (h20 : ¬ sv.overall.total_balloons = 20) (h40 : ¬ sv.overall.total_balloons = 40) :
    ∃ rcd,
      runSession thresh reward
          ((spec, List.replicate p (some Key.pump) ++ [none]) :: rest) idx sv tr br
        = runSession thresh reward rest (idx+1) sv (tr ++ [rcd]) br ∧
      rcd.pumps_made = p ∧ rcd.exploded = false ∧ rcd.earned_this = 0 ∧
      rcd.potential_this = 0 := by
  rw [runSession, runTrialLoop_timeout_run _ _ _ _ hp]
  dsimp only
  rw [if_neg (by tauto)]
  exact ⟨_, rfl, rfl, rfl, rfl, rfl⟩

/-- Witness for amended C10: one pump then a timeout, threshold 3, fresh
session state (whose balloon count 0 is not at a boundary). -/
theorem abandoned_trial_frame_witness :
    ∃ rcd,
      runSession (fun _ _ => 3) (1/2)
          [(⟨("red"), 8⟩, List.replicate 1 (some Key.pump) ++ [none])] 1 initSess [] []
        = runSession (fun _ _ => 3) (1/2) [] 2 initSess ([] ++ [rcd]) [] ∧
      rcd.pumps_made = 1 ∧ rcd.exploded = false ∧ rcd.earned_this = 0 ∧
      rcd.potential_this = 0 :=
  abandoned_trial_frame (fun _ _ => 3) (1/2) ⟨("red"), 8⟩ 1 [] 1 initSess [] []
    (by decide) (by decide) (by decide)

end BART
